import Mathlib

/-!
Shallow embedding of `cobra/pickup/git.py` (class `Git` and its helpers).

Python strings are modelled as `List Char`; Python dictionaries as
association lists with unique keys; raised exceptions as `Except` errors;
the process-wide current working directory as an explicit string threaded
through each operation; the byte streams produced by the external `git`
processes as explicit parameters of each operation.
-/

/-- A Python string, modelled as its list of characters. -/
abbrev PyStr := List Char

/-- Coerce a Lean string literal to the `List Char` model. -/
def pystr (s : String) : PyStr := s.data

/-- `pyStarts pat s` is true when `pat` is a prefix of `s`
(Python `s.startswith(pat)`, used to implement substring scanning). -/
def pyStarts : PyStr → PyStr → Bool
  | [], _ => true
  | _ :: _, [] => false
  | a :: as, b :: bs => a == b && pyStarts as bs

/-- Python `needle in hay` (substring containment). -/
def pyIn (needle : PyStr) : PyStr → Bool
  | [] => pyStarts needle []
  | c :: t => pyStarts needle (c :: t) || pyIn needle t

/-- Core of Python `s.replace(old, new)` for nonempty `old`: scan left to
right; on a match emit `new` and skip over the matched occurrence (the
`Nat` argument counts characters still to skip); no rescanning of emitted
text.  Mirrors CPython semantics of non-overlapping replacement. -/
def pyReplCore (old new : PyStr) : Nat → PyStr → PyStr
  | _, [] => []
  | k+1, _ :: as => pyReplCore old new k as
  | 0, a :: as =>
    if pyStarts old (a :: as) then new ++ pyReplCore old new (old.length - 1) as
    else a :: pyReplCore old new 0 as

/-- Python `s.replace(old, new)`.  The `old = ""` case (Python interleaves
`new` everywhere) never occurs in the modelled code and is left as `s`. -/
def pyReplace (s old new : PyStr) : PyStr :=
  match old with
  | [] => s
  | _ :: _ => pyReplCore old new 0 s

/-- Core of Python `s.split(sep)` for nonempty `sep`: scan left to right,
cut at each non-overlapping occurrence of `sep` (the `Nat` argument counts
separator characters still to skip after a cut). -/
def pySplitCore (sep : PyStr) : Nat → PyStr → List PyStr
  | _, [] => [[]]
  | k+1, _ :: as => pySplitCore sep k as
  | 0, a :: as =>
    if pyStarts sep (a :: as) then [] :: pySplitCore sep (sep.length - 1) as
    else
      match pySplitCore sep 0 as with
      | [] => [[a]]
      | t :: ts => (a :: t) :: ts

/-- Python `s.split(sep)`.  An empty `sep` raises `ValueError` in Python;
the modelled code never passes one, so that case is left as `[s]`. -/
def pySplit (s sep : PyStr) : List PyStr :=
  match sep with
  | [] => [s]
  | _ :: _ => pySplitCore sep 0 s

/-- Uppercase hexadecimal digit, for percent-encoding. -/
def hexDigit (n : Nat) : Char :=
  if n < 10 then Char.ofNat (48 + n) else Char.ofNat (55 + n)

/-- Characters Python 2 `urllib.quote` leaves unescaped with the default
`safe='/'`: ASCII letters and digits, `'_'`, `'.'`, `'-'`, and `'/'`. -/
def quoteSafe (c : Char) : Bool :=
  c.isAlphanum || c == '_' || c == '.' || c == '-' || c == '/'

/-- Percent-encoding of one character (ASCII range, as used by the code). -/
def quoteChar (c : Char) : PyStr :=
  if quoteSafe c then [c]
  else ['%', hexDigit (c.toNat / 16), hexDigit (c.toNat % 16)]

/-- Python 2 `urllib.quote(s)` with the default `safe='/'`. -/
def pyQuote (s : PyStr) : PyStr := (s.map quoteChar).flatten

/-- Python `os.path.join(a, b)` (POSIX): an absolute `b` discards `a`. -/
def osPathJoin (a b : PyStr) : PyStr :=
  if b.headD ' ' == '/' && b ≠ [] then b
  else if a = [] then b
  else if a.getLastD ' ' == '/' then a ++ b
  else a ++ '/' :: b

/-- Python `'{0}:{1}'.format(x, y)` renders `None` as the string `"None"`. -/
def optStr (o : Option PyStr) : PyStr :=
  match o with
  | none => pystr "None"
  | some s => s

/-- Exceptions the modelled code can raise.  `notExistError` and
`authError` mirror the classes `NotExistError` and `AuthError` defined in
the source (`AuthError` is declared there but never raised);
`indexError` and `keyError` mirror Python's built-in lookup failures. -/
inductive PyExn where
  | notExistError (message : PyStr)
  | authError (message : PyStr)
  | indexError
  | keyError (key : PyStr)
deriving DecidableEq, Repr

/-- The `Git` instance attributes set by `Git.__init__`. -/
structure Git where
  repo_address : PyStr
  repo_username : Option PyStr
  repo_password : Option PyStr
  repo_branch : PyStr
  repo_author : PyStr
  repo_name : PyStr
  upload_directory : PyStr
  repo_directory : PyStr
deriving DecidableEq, Repr

/-- `Git.__init__(repo_address, branch, username, password)`.
`upload_directory = os.path.join(home_path, 'versions')` (the `makedirs`
side effect is a filesystem mutation with no bearing on the attributes);
`repo_user = repo_address.split('/')[-2]` and
`repo_name = repo_address.split('/')[-1].replace('.git', '')`; a negative
index beyond the list length raises `IndexError`;
`repo_directory = os.path.join(os.path.join(upload_directory, repo_user), repo_name)`. -/
def Git.init (home_path repo_address branch : PyStr)
    (username password : Option PyStr) : Except PyExn Git :=
  let upload_directory := osPathJoin home_path (pystr "versions")
  match (pySplit repo_address ['/']).reverse with
  | seg1 :: seg2 :: _ =>
    let repo_name := pyReplace seg1 (pystr ".git") []
    .ok { repo_address := repo_address
          repo_username := username
          repo_password := password
          repo_branch := branch
          repo_author := seg2
          repo_name := repo_name
          upload_directory := upload_directory
          repo_directory := osPathJoin (osPathJoin upload_directory seg2) repo_name }
  | _ => .error .indexError

/-- `Git.parse_err(err)`: classify an external command's error stream.
Returns the value Python returns (`None` or the pair
`(False, 'repo has already cloned.')`), or the raised exception.
Note the source raises `NotExistError('Authentication failed')` in the
authentication branch even though it defines an `AuthError` class. -/
def Git.parse_err (err : PyStr) : Except PyExn (Option (Bool × PyStr)) :=
  if pyIn (pystr "not found") err || pyIn (pystr "Not found") err then
    .error (.notExistError (pystr "Repo doesn't exist"))
  else if pyIn (pystr "already exists") err then
    .ok (some (false, pystr "repo has already cloned."))
  else if pyIn (pystr "Authentication failed") err then
    .error (.notExistError (pystr "Authentication failed"))
  else
    .ok none

/-- The credential pattern `'{0}:{1}'.format(repo_username, repo_password)`
scrubbed from diagnostics by `pull` and `clone`. -/
def Git.credPattern (g : Git) : PyStr :=
  optStr g.repo_username ++ ':' :: optStr g.repo_password

/-- `Git.pull()`.  Parameters beyond the instance: whether
`os.path.isdir(repo_directory)` holds (`repoExists`), the current working
directory `cwd0`, and the `stdout`/`stderr` text of `git pull origin
master`.  Returns the Python return value (or raised exception) paired
with the final process working directory.  Note both `os.chdir` calls in
the source pass `repo_dir`: the second one, commented "change work
directory back", does not restore `cwd0`. -/
def Git.pull (g : Git) (repoExists : Bool) (cwd0 pull_out pull_err : PyStr) :
    Except PyExn (Bool × Option PyStr) × PyStr :=
  if repoExists = false then
    (.ok (false, some (pystr "No local repo exist. Please clone first.")), cwd0)
  else
    let cwd1 := g.repo_directory
    match Git.parse_err pull_err with
    | .error e => (.error e, cwd1)
    | .ok _ =>
      let scrubbed := pyReplace pull_err g.credPattern []
      let cwd2 := g.repo_directory
      if pyIn (pystr "Updating") pull_out || pyIn (pystr "up-to-date") pull_out then
        (.ok (true, none), cwd2)
      else
        (.ok (false, some scrubbed), cwd2)

/-- The clone address built by `Git.clone()`: the plain `repo_address` for
a public repository; with credentials,
`repo_address.split('://')[0] + '://' + quote(username) + ':' + password
+ '@' + repo_address.split('://')[1]` (the username is percent-encoded,
the password is embedded verbatim).  Indexing a too-short split raises
`IndexError`. -/
def Git.cloneAddress (g : Git) : Except PyExn PyStr :=
  match g.repo_username, g.repo_password with
  | some u, some p =>
    match pySplit g.repo_address (pystr "://") with
    | s0 :: s1 :: _ =>
      .ok (s0 ++ pystr "://" ++ pyQuote u ++ ':' :: p ++ '@' :: s1)
    | _ => .error .indexError
  | _, _ => .ok g.repo_address

/-- `Git.checkout(branch)`.  Parameters beyond the instance: whether the
local copy exists, the current working directory, and the
`stdout`/`stderr` of `git checkout <branch>`.  Returns the boolean result,
the final working directory, and the strings passed to `logger.info`.
The missing-copy path logs `'No repo directory.'` and returns bare
`False`; otherwise the prior directory is restored on both exits. -/
def Git.checkout (g : Git) (repoExists : Bool) (cwd0 branch checkout_out checkout_err : PyStr) :
    Bool × PyStr × List PyStr :=
  if repoExists = false then
    (false, cwd0, [pystr "No repo directory."])
  else
    if pyIn (pystr "did not match") checkout_err then
      (false, cwd0, [checkout_err])
    else
      (true, cwd0, [checkout_err])

/-- `Git.clone()`.  Parameters beyond the instance: whether the local copy
exists before the call (`repoExists`) and after the external `git clone`
command ran (`existsAfter`), the working directory, the streams of the
`git clone` command, the streams of the delegated `git pull` (used when
the copy already exists), and the streams of the post-clone
`git checkout`.  Mirrors the source: delegate to `pull` when the copy
exists; otherwise build the clone address (possible `IndexError`), run the
command, classify its error stream, scrub credentials, then switch to
`repo_branch` and report `(True, None)` on success or
`(False, scrubbed stderr)` on checkout failure. -/
def Git.clone (g : Git) (repoExists existsAfter : Bool)
    (cwd0 clone_out clone_err pull_out pull_err checkout_out checkout_err : PyStr) :
    Except PyExn (Bool × Option PyStr) × PyStr :=
  if repoExists then Git.pull g true cwd0 pull_out pull_err
  else
    match Git.cloneAddress g with
    | .error e => (.error e, cwd0)
    | .ok _ =>
      match Git.parse_err clone_err with
      | .error e => (.error e, cwd0)
      | .ok _ =>
        let scrubbed := pyReplace clone_err g.credPattern []
        match Git.checkout g existsAfter cwd0 g.repo_branch checkout_out checkout_err with
        | (true, cwd1, _) => (.ok (true, none), cwd1)
        | (false, cwd1, _) => (.ok (false, some scrubbed), cwd1)

/-- A Python dict from filename to list of added lines, as an association
list whose keys are unique by construction. -/
abbrev DiffDict := List (PyStr × List PyStr)

/-- `d[k] = v`: overwrite the binding in place or append a new key. -/
def dictSet : DiffDict → PyStr → List PyStr → DiffDict
  | [], k, v => [(k, v)]
  | (k', v') :: d, k, v =>
    if k' = k then (k, v) :: d else (k', v') :: dictSet d k v

/-- `d[k]` as an `Option` (a `none` lookup raises `KeyError` at use site). -/
def dictGet : DiffDict → PyStr → Option (List PyStr)
  | [], _ => none
  | (k', v') :: d, k => if k' = k then some v' else dictGet d k

/-- A diff line `x` with `x != '' and x[0:3] == '+++'` (the new-file-path
marker of `Git.__parse_diff_result`). -/
def isHeaderLine (x : PyStr) : Bool :=
  decide (x ≠ []) && (x.take 3 == pystr "+++")

/-- The filename context a `+++` line sets: `x.split('/')[-1]`. -/
def headerName (x : PyStr) : PyStr :=
  (pySplit x ['/']).getLastD []

/-- A diff line that appends: not a `+++` line, nonempty, starting with
`'+'`, and with a nonempty remainder `x[1:]`. -/
def isAppLine (x : PyStr) : Bool :=
  match x with
  | [] => false
  | c :: r => !isHeaderLine (c :: r) && (c == '+') && !r.isEmpty

/-- One line of the loop body of `Git.__parse_diff_result`, acting on the
dict and the `tmp_filename` context. -/
def diffStep (d : DiffDict) (tmp x : PyStr) : Except PyExn (DiffDict × PyStr) :=
  if isHeaderLine x then
    .ok (dictSet d (headerName x) [], headerName x)
  else
    match x with
    | [] => .ok (d, tmp)
    | c :: r =>
      if c = '+' then
        if r = [] then .ok (d, tmp)
        else
          match dictGet d tmp with
          | none => .error (.keyError tmp)
          | some v => .ok (dictSet d tmp (v ++ [r]), tmp)
      else .ok (d, tmp)

/-- The loop of `Git.__parse_diff_result` over the split lines. -/
def parseDiffGo : List PyStr → DiffDict → PyStr → Except PyExn (DiffDict × PyStr)
  | [], d, tmp => .ok (d, tmp)
  | x :: xs, d, tmp =>
    match diffStep d tmp x with
    | .ok (d', tmp') => parseDiffGo xs d' tmp'
    | .error e => .error e

/-- `Git.__parse_diff_result` applied to the already-split lines, starting
from the empty dict and `tmp_filename = ''`. -/
def parseDiffLines (lines : List PyStr) : Except PyExn DiffDict :=
  (parseDiffGo lines [] []).map (fun r => r.1)

/-- `Git.__parse_diff_result(content)`: split on newlines, then run the
line loop. -/
def parse_diff_result (content : PyStr) : Except PyExn DiffDict :=
  parseDiffLines (pySplit content ['\n'])

/-- The value `Git.diff` returns: `False` when no local copy exists, the
raw tool output, or the parsed dict. -/
inductive DiffRet where
  | noRepo
  | raw (s : PyStr)
  | parsed (d : DiffDict)
deriving DecidableEq, Repr

/-- `Git.diff(new_version, old_version, raw_output)`.  Parameters beyond
the instance: existence of the local copy, working directory, and the
streams of `git diff <old> <new>`.  The source saves
`current_dir = os.getcwd() + os.sep`, changes into
`current_dir + repo_directory`, and restores by `os.chdir(current_dir)`
(the saved string carries a trailing separator; the operating system
resolves it to the same directory). -/
def Git.diff (g : Git) (repoExists : Bool) (cwd0 diff_out diff_err : PyStr)
    (raw_output : Bool) : Except PyExn DiffRet × PyStr :=
  if repoExists = false then (.ok .noRepo, cwd0)
  else
    let current_dir := cwd0 ++ ['/']
    if raw_output then (.ok (.raw diff_out), current_dir)
    else
      match parse_diff_result diff_out with
      | .ok d => (.ok (.parsed d), current_dir)
      | .error e => (.error e, current_dir)

/-- Python regex `\s`: ASCII whitespace characters. -/
def pyIsSpace (c : Char) : Bool :=
  c == ' ' || c == '\t' || c == '\n' || c == '\r' || c == '\x0b' || c == '\x0c'

/-- Exactly the 19-character shape
`\d{4}-\d{2}-\d{2}\s\d{2}:\d{2}:\d{2}` of the blame timestamp group. -/
def tsCheck (t : PyStr) : Bool :=
  match t with
  | [y1, y2, y3, y4, h1, m1, m2, h2, d1, d2, w, o1, o2, c1, i1, i2, c2, s1, s2] =>
    y1.isDigit && y2.isDigit && y3.isDigit && y4.isDigit && h1 == '-' &&
    m1.isDigit && m2.isDigit && h2 == '-' && d1.isDigit && d2.isDigit &&
    pyIsSpace w && o1.isDigit && o2.isDigit && c1 == ':' &&
    i1.isDigit && i2.isDigit && c2 == ':' && s1.isDigit && s2.isDigit
  | _ => false

/-- Match the timestamp group at the head of `l`, returning its 19
characters. -/
def tsTake (l : PyStr) : Option PyStr :=
  if tsCheck (l.take 19) then some (l.take 19) else none

/-- One candidate split of `(.*)\s(timestamp)` against `rest`: group 1
takes `k` characters (each must not be a newline, as regex `.`), then one
`\s`, then the timestamp group. -/
def blameAtSplit (rest : PyStr) (k : Nat) : Option (PyStr × PyStr) :=
  if (rest.take k).all (fun c => c != '\n') then
    match rest.drop k with
    | w :: r2 =>
      if pyIsSpace w then (tsTake r2).map (fun t => (rest.take k, t))
      else none
    | [] => none
  else none

/-- Greedy `(.*)`: try the longest group-1 length first. -/
def blameGreedyAux (rest : PyStr) : Nat → Option (PyStr × PyStr)
  | 0 => blameAtSplit rest 0
  | k+1 =>
    match blameAtSplit rest (k+1) with
    | some r => some r
    | none => blameGreedyAux rest k

/-- Greedy match of `(.*)\s(timestamp)` against all of `rest`. -/
def blameGreedy (rest : PyStr) : Option (PyStr × PyStr) :=
  blameGreedyAux rest rest.length

/-- Match `(?:.{8}\s\()(.*)\s(timestamp)` anchored at the head of `l`:
eight non-newline characters, one whitespace, `'('`, then the greedy
group pair. -/
def blameAtPos (l : PyStr) : Option (PyStr × PyStr) :=
  if ((l.take 8).length == 8) && (l.take 8).all (fun c => c != '\n') then
    match l.drop 8 with
    | w :: p :: rest =>
      if pyIsSpace w && p == '(' then blameGreedy rest else none
    | _ => none
  else none

/-- The leftmost match of the blame pattern, as
`re.findall(...)[0]` would produce it: try each start position from the
left. -/
def blameFirst : PyStr → Option (PyStr × PyStr)
  | [] => none
  | c :: t =>
    match blameAtPos (c :: t) with
    | some r => some r
    | none => blameFirst t

/-- `Git.committer(file, path, line_number, length)`.  Parameters beyond
the source signature: the working directory before the call and the
`stdout` of `git blame`.  The source does `os.chdir(path)` and never
restores, so the final working directory is always `path`.  Empty output
returns `(False, None, None)`; otherwise the first regex match yields
`(True, author, timestamp)`, and an unmatched nonempty output raises
`IndexError` at `group[0]`. -/
def Git.committer (file path : PyStr) (line_number length : Nat)
    (cwd0 checkout_out : PyStr) :
    Except PyExn (Bool × Option PyStr × Option PyStr) × PyStr :=
  let cwd1 := path
  if checkout_out.length ≠ 0 then
    match blameFirst checkout_out with
    | some (a, t) => (.ok (true, some a, some t), cwd1)
    | none => (.error .indexError, cwd1)
  else
    (.ok (false, none, none), cwd1)

/-- `Git.get_repo()`: pull when the local copy exists, else clone. -/
def Git.get_repo (g : Git) (repoExists existsAfter : Bool)
    (cwd0 clone_out clone_err pull_out pull_err checkout_out checkout_err : PyStr) :
    Except PyExn (Bool × Option PyStr) × PyStr :=
  if repoExists then Git.pull g true cwd0 pull_out pull_err
  else Git.clone g false existsAfter cwd0 clone_out clone_err pull_out pull_err
    checkout_out checkout_err

/-! ## Examples used by concrete theorems -/

/-- The handle `Git('https://h/o/r.git')` built with `home_path = '/home'`
and no credentials (checked against `Git.init` in the theorems below). -/
def gitPub : Git :=
  { repo_address := pystr "https://h/o/r.git"
    repo_username := none
    repo_password := none
    repo_branch := pystr "master"
    repo_author := pystr "o"
    repo_name := pystr "r"
    upload_directory := pystr "/home/versions"
    repo_directory := pystr "/home/versions/o/r" }

/-- The same handle with credentials. -/
def gitCred (u p : String) : Git :=
  { gitPub with repo_username := some (pystr u), repo_password := some (pystr p) }

/-! ## Lemmas about the Python string primitives -/

theorem pySplitCore_ne_nil (sep : PyStr) :
    ∀ (s : PyStr) (k : Nat), pySplitCore sep k s ≠ [] := by
  intro s
  induction s with
  | nil => intro k; cases k <;> simp [pySplitCore]
  | cons a as ih =>
    intro k
    cases k with
    | succ k => simpa [pySplitCore] using ih k
    | zero =>
      simp only [pySplitCore]
      split
      · simp
      · rcases h : pySplitCore sep 0 as with _ | ⟨t, ts⟩
        · exact absurd h (ih 0)
        · simp [h]


theorem pyIn_single_eq_false (c : Char) :
    ∀ (s : PyStr), (∀ c' ∈ s, c' ≠ c) → pyIn [c] s = false := by
  intro s
  induction s with
  | nil => intro _; simp [pyIn, pyStarts]
  | cons a as ih =>
    intro h
    have ha : (c == a) = false := by
      simp only [beq_eq_false_iff_ne, ne_eq]
      exact fun e => h a (by simp) e.symm
    simp only [pyIn, pyStarts, ha, Bool.false_and, Bool.false_or]
    exact ih fun c' hc' => h c' (by simp [hc'])

theorem pySplitCore_of_no_occurrence (c : Char) (cs : PyStr) :
    ∀ (s : PyStr), pyIn (c :: cs) s = false → pySplitCore (c :: cs) 0 s = [s] := by
  intro s
  induction s with
  | nil => intro _; simp [pySplitCore]
  | cons a as ih =>
    intro h
    simp only [pyIn, Bool.or_eq_false_iff] at h
    simp [pySplitCore, h.1, ih h.2]

theorem pySplitCore_slash_append :
    ∀ (a b : PyStr), (∀ c ∈ b, c ≠ '/') →
      pySplitCore ['/'] 0 (a ++ '/' :: b) = pySplitCore ['/'] 0 a ++ [b] := by
  intro a
  induction a with
  | nil =>
    intro b hb
    have hbin : pyIn ['/'] b = false := pyIn_single_eq_false '/' b hb
    simp [pySplitCore, pyStarts, pySplitCore_of_no_occurrence '/' [] b hbin]
  | cons x a' ih =>
    intro b hb
    by_cases hx : x = '/'
    · subst hx
      simp [pySplitCore, pyStarts, ih b hb]
    · have hxb : ('/' == x) = false := by
        simp only [beq_eq_false_iff_ne, ne_eq]
        exact fun e => hx e.symm
      rw [List.cons_append]
      simp only [pySplitCore, pyStarts, hxb, Bool.false_and, Bool.false_eq_true, if_false]
      rw [ih b hb]
      rcases h : pySplitCore ['/'] 0 a' with _ | ⟨t, ts⟩
      · exact absurd h (pySplitCore_ne_nil ['/'] a' 0)
      · simp [h]

theorem pySplitCore_scheme_pair :
    ∀ (a b : PyStr), (∀ c ∈ a, c ≠ ':') → pyIn [':', '/', '/'] b = false →
      pySplitCore [':', '/', '/'] 0 (a ++ ':' :: '/' :: '/' :: b) = [a, b] := by
  intro a
  induction a with
  | nil =>
    intro b ha hb
    simp [pySplitCore, pyStarts, pySplitCore_of_no_occurrence ':' ['/', '/'] b hb]
  | cons x a' ih =>
    intro b ha hb
    have hx : x ≠ ':' := ha x (by simp)
    have hxb : (':' == x) = false := by
      simp only [beq_eq_false_iff_ne, ne_eq]
      exact fun e => hx e.symm
    rw [List.cons_append]
    simp only [pySplitCore, pyStarts, hxb, Bool.false_and, Bool.false_eq_true, if_false]
    rw [ih b (fun c hc => ha c (by simp [hc])) hb]

/-! ## Lemmas about the diff-result dictionary and line loop -/

theorem dictGet_dictSet_self :
    ∀ (d : DiffDict) (k : PyStr) (v : List PyStr), dictGet (dictSet d k v) k = some v := by
  intro d k v
  induction d with
  | nil => simp [dictSet, dictGet]
  | cons p d ih =>
    by_cases h : p.1 = k
    · simp [dictSet, dictGet, h]
    · simp [dictSet, dictGet, h, ih]

theorem dictGet_dictSet_other :
    ∀ (d : DiffDict) (k k' : PyStr) (v : List PyStr), k ≠ k' →
      dictGet (dictSet d k v) k' = dictGet d k' := by
  intro d k k' v hkk
  induction d with
  | nil => simp [dictSet, dictGet, hkk]
  | cons p d ih =>
    by_cases h : p.1 = k
    · simp [dictSet, dictGet, h, hkk]
    · simp only [dictSet, dictGet, h, if_false]
      by_cases h' : p.1 = k'
      · simp [h']
      · simp [h', ih]

theorem diffStep_header (d : DiffDict) (tmp x : PyStr) (h : isHeaderLine x = true) :
    diffStep d tmp x = .ok (dictSet d (headerName x) [], headerName x) := by
  simp [diffStep, h]

theorem diffStep_skip (d : DiffDict) (tmp x : PyStr)
    (hh : isHeaderLine x = false) (ha : isAppLine x = false) :
    diffStep d tmp x = .ok (d, tmp) := by
  cases x with
  | nil => simp [diffStep, isHeaderLine]
  | cons c r =>
    simp only [isAppLine, hh, Bool.not_false, Bool.true_and, Bool.and_eq_false_iff] at ha
    simp only [diffStep, hh, Bool.false_eq_true, if_false]
    rcases ha with ha | ha
    · have : ¬c = '+' := by simpa using ha
      simp [this]
    · have : r = [] := by simpa using ha
      simp [this]

theorem isAppLine_elim (x : PyStr) (h : isAppLine x = true) :
    isHeaderLine x = false ∧ ∃ r, x = '+' :: r ∧ r ≠ [] := by
  cases x with
  | nil => simp [isAppLine] at h
  | cons c r =>
    simp only [isAppLine, Bool.and_eq_true, Bool.not_eq_true', beq_iff_eq] at h
    obtain ⟨⟨hh, hc⟩, hr⟩ := h
    subst hc
    exact ⟨hh, r, rfl, by simpa using hr⟩

theorem diffStep_app_none (d : DiffDict) (tmp x : PyStr)
    (ha : isAppLine x = true) (hg : dictGet d tmp = none) :
    diffStep d tmp x = .error (.keyError tmp) := by
  obtain ⟨hh, r, hx, hr⟩ := isAppLine_elim x ha
  subst hx
  simp [diffStep, hh, hr, hg]

theorem diffStep_app_some (d : DiffDict) (tmp x : PyStr) (v : List PyStr)
    (ha : isAppLine x = true) (hg : dictGet d tmp = some v) :
    diffStep d tmp x = .ok (dictSet d tmp (v ++ [x.drop 1]), tmp) := by
  obtain ⟨hh, r, hx, hr⟩ := isAppLine_elim x ha
  subst hx
  simp [diffStep, hh, hr, hg]

theorem parseDiffGo_append :
    ∀ (as bs : List PyStr) (d : DiffDict) (tmp : PyStr),
      parseDiffGo (as ++ bs) d tmp =
        match parseDiffGo as d tmp with
        | .ok (d', tmp') => parseDiffGo bs d' tmp'
        | .error e => .error e := by
  intro as
  induction as with
  | nil => intro bs d tmp; simp [parseDiffGo]
  | cons x as ih =>
    intro bs d tmp
    simp only [List.cons_append, parseDiffGo]
    rcases h : diffStep d tmp x with e | ⟨d', tmp'⟩
    · rfl
    · exact ih bs d' tmp'

theorem dictGet_preserved_one (d d' : DiffDict) (tmp tmp' f x : PyStr)
    (ha : isAppLine x = false) (hstep : diffStep d tmp x = .ok (d', tmp'))
    (hf : dictGet d f = some []) : dictGet d' f = some [] := by
  by_cases hh : isHeaderLine x = true
  · rw [diffStep_header d tmp x hh] at hstep
    have hd : d' = dictSet d (headerName x) [] := (congrArg Prod.fst (Except.ok.inj hstep)).symm
    subst hd
    by_cases hk : headerName x = f
    · subst hk; exact dictGet_dictSet_self d (headerName x) []
    · rw [dictGet_dictSet_other d (headerName x) f [] hk]; exact hf
  · rw [diffStep_skip d tmp x (by simpa using hh) ha] at hstep
    have hd : d' = d := (congrArg Prod.fst (Except.ok.inj hstep)).symm
    exact hd ▸ hf

theorem dictGet_preserved_list :
    ∀ (xs : List PyStr) (d d' : DiffDict) (tmp tmp' f : PyStr),
      (∀ x ∈ xs, isAppLine x = false) →
      parseDiffGo xs d tmp = .ok (d', tmp') →
      dictGet d f = some [] → dictGet d' f = some [] := by
  intro xs
  induction xs with
  | nil =>
    intro d d' tmp tmp' f _ hgo hf
    simp only [parseDiffGo] at hgo
    have hd : d' = d := (congrArg Prod.fst (Except.ok.inj hgo)).symm
    exact hd ▸ hf
  | cons x xs ih =>
    intro d d' tmp tmp' f hall hgo hf
    simp only [parseDiffGo] at hgo
    rcases h : diffStep d tmp x with e | ⟨d1, tmp1⟩
    · rw [h] at hgo; exact absurd hgo (by simp)
    · rw [h] at hgo
      have hf1 : dictGet d1 f = some [] :=
        dictGet_preserved_one d d1 tmp tmp1 f x (hall x (by simp)) h hf
      exact ih d1 d' tmp1 tmp' f (fun y hy => hall y (by simp [hy])) hgo hf1

theorem parseDiffGo_skip_prefix :
    ∀ (pre rest : List PyStr) (d : DiffDict) (tmp : PyStr),
      (∀ y ∈ pre, isHeaderLine y = false ∧ isAppLine y = false) →
      parseDiffGo (pre ++ rest) d tmp = parseDiffGo rest d tmp := by
  intro pre
  induction pre with
  | nil => intro rest d tmp _; rfl
  | cons y pre ih =>
    intro rest d tmp hall
    have hy := hall y (by simp)
    simp only [List.cons_append, parseDiffGo, diffStep_skip d tmp y hy.1 hy.2]
    exact ih rest d tmp (fun z hz => hall z (by simp [hz]))

theorem parseDiffGo_ok_of_get :
    ∀ (xs : List PyStr) (d : DiffDict) (tmp : PyStr) (v : List PyStr),
      dictGet d tmp = some v → ∃ o, parseDiffGo xs d tmp = .ok o := by
  intro xs
  induction xs with
  | nil => intro d tmp v _; exact ⟨(d, tmp), rfl⟩
  | cons x xs ih =>
    intro d tmp v hget
    by_cases hh : isHeaderLine x = true
    · have := diffStep_header d tmp x hh
      simp only [parseDiffGo, this]
      exact ih (dictSet d (headerName x) []) (headerName x) []
        (dictGet_dictSet_self d (headerName x) [])
    · by_cases ha : isAppLine x = true
      · have := diffStep_app_some d tmp x v ha hget
        simp only [parseDiffGo, this]
        exact ih (dictSet d tmp (v ++ [x.drop 1])) tmp (v ++ [x.drop 1])
          (dictGet_dictSet_self d tmp (v ++ [x.drop 1]))
      · have := diffStep_skip d tmp x (by simpa using hh) (by simpa using ha)
        simp only [parseDiffGo, this]
        exact ih d tmp v hget

theorem parseDiffGo_ok_guarded :
    ∀ (xs : List PyStr) (d : DiffDict) (tmp : PyStr),
      (∀ pre x rest, xs = pre ++ x :: rest → isAppLine x = true →
        ∃ y ∈ pre, isHeaderLine y = true) →
      ∃ o, parseDiffGo xs d tmp = .ok o := by
  intro xs
  induction xs with
  | nil => intro d tmp _; exact ⟨(d, tmp), rfl⟩
  | cons x xs ih =>
    intro d tmp hguard
    by_cases hh : isHeaderLine x = true
    · have := diffStep_header d tmp x hh
      simp only [parseDiffGo, this]
      exact parseDiffGo_ok_of_get xs (dictSet d (headerName x) []) (headerName x) []
        (dictGet_dictSet_self d (headerName x) [])
    · by_cases ha : isAppLine x = true
      · obtain ⟨y, hy, _⟩ := hguard [] x xs rfl ha
        exact absurd hy (by simp)
      · have := diffStep_skip d tmp x (by simpa using hh) (by simpa using ha)
        simp only [parseDiffGo, this]
        refine ih d tmp ?_
        intro pre z rest heq hz
        obtain ⟨y, hy, hhy⟩ := hguard (x :: pre) z rest (by simp [heq]) hz
        rcases List.mem_cons.mp hy with hy1 | hy1
        · exact absurd (hy1 ▸ hhy) hh
        · exact ⟨y, hy1, hhy⟩

/-! ## Lemmas about the blame pattern matcher -/

theorem tsTake_check (l t : PyStr) (h : tsTake l = some t) : tsCheck t = true := by
  unfold tsTake at h
  split at h
  · cases h
    assumption
  · cases h

theorem blameAtSplit_ts (rest : PyStr) (k : Nat) (m t : PyStr)
    (h : blameAtSplit rest k = some (m, t)) : tsCheck t = true := by
  unfold blameAtSplit at h
  split at h
  · split at h
    · split at h
      · rcases h2 : tsTake _ with _ | t'
        · rw [h2] at h; cases h
        · rw [h2] at h
          cases h
          exact tsTake_check _ _ h2
      · cases h
    · cases h
  · cases h

theorem blameGreedyAux_ts (rest : PyStr) :
    ∀ (k : Nat) (m t : PyStr), blameGreedyAux rest k = some (m, t) → tsCheck t = true := by
  intro k
  induction k with
  | zero => intro m t h; exact blameAtSplit_ts rest 0 m t h
  | succ k ih =>
    intro m t h
    simp only [blameGreedyAux] at h
    rcases h2 : blameAtSplit rest (k + 1) with _ | r
    · rw [h2] at h
      exact ih m t h
    · rw [h2] at h
      cases h
      exact blameAtSplit_ts rest (k + 1) m t h2

theorem blameAtPos_ts (l m t : PyStr) (h : blameAtPos l = some (m, t)) :
    tsCheck t = true := by
  unfold blameAtPos at h
  split at h
  · split at h
    · split at h
      · exact blameGreedyAux_ts _ _ m t h
      · cases h
    · cases h
  · cases h

theorem blameFirst_ts :
    ∀ (l m t : PyStr), blameFirst l = some (m, t) → tsCheck t = true := by
  intro l
  induction l with
  | nil => intro m t h; cases h
  | cons c cl ih =>
    intro m t h
    simp only [blameFirst] at h
    rcases h2 : blameAtPos (c :: cl) with _ | r
    · rw [h2] at h
      exact ih m t h
    · rw [h2] at h
      cases h
      exact blameAtPos_ts (c :: cl) m t h2

theorem blameFirst_ne_nil (l m t : PyStr) (h : blameFirst l = some (m, t)) : l ≠ [] := by
  intro he
  subst he
  cases h

/-! ## Claim theorems -/

/-- Claim C1 (code_bug evaluation): the error classifier evaluated at the
inputs of the claim.  A stream containing `"Authentication failed"` makes
`parse_err` raise `NotExistError('Authentication failed')` — not
`AuthError`, which the source defines but never raises; `"not found"`
matching is not case-insensitive (an upper-case `"NOT FOUND"` stream is
unclassified); a stream containing `"already exists"` yields the
non-fatal already-cloned pair without raising; a lower-case
`"not found"` stream raises `NotExistError`. -/
theorem parse_err_classification_eval :
    Git.parse_err (pystr "remote: Authentication failed") =
      .error (.notExistError (pystr "Authentication failed")) ∧
    Git.parse_err (pystr "ERROR: REPOSITORY NOT FOUND") = .ok none ∧
    Git.parse_err (pystr "fatal: destination path already exists and is not an empty directory.") =
      .ok (some (false, pystr "repo has already cloned.")) ∧
    Git.parse_err (pystr "fatal: repository not found") =
      .error (.notExistError (pystr "Repo doesn't exist")) :=
  ⟨rfl, rfl, rfl, rfl⟩

/-- Claim C2 (code_bug evaluation): working-directory restoration fails.
With the handle for `https://h/o/r.git` under `home_path = '/home'`,
a `pull` started in `/work` finishes with the process in
`/home/versions/o/r` — on the success path and on the raising path alike
(the source's "change work directory back" line changes into `repo_dir`
again) — and `committer` started in `/work` finishes in its `path`
argument, never restoring.  Both final directories differ from the
starting directory, contradicting the restore-on-every-exit-path claim. -/
theorem pull_committer_cwd_not_restored_eval :
    Git.init (pystr "/home") (pystr "https://h/o/r.git") (pystr "master") none none =
      .ok gitPub ∧
    Git.pull gitPub true (pystr "/work") (pystr "Updating 1a2b..3c4d") [] =
      (.ok (true, none), pystr "/home/versions/o/r") ∧
    Git.pull gitPub true (pystr "/work") [] (pystr "fatal: repository not found") =
      (.error (.notExistError (pystr "Repo doesn't exist")), pystr "/home/versions/o/r") ∧
    Git.committer (pystr "git.py") (pystr "/repo") 21 1 (pystr "/work") [] =
      (.ok (false, none, none), pystr "/repo") ∧
    (pystr "/home/versions/o/r" == pystr "/work") = false ∧
    (pystr "/repo" == pystr "/work") = false :=
  ⟨rfl, rfl, rfl, rfl, rfl, rfl⟩

/-- Claim C3 counterexample: the scrub misses both the percent-encoded
credential form actually embedded in the fetch URL and, through splicing,
even the raw form.  With username `"b b"` (embedded as `b%20b`) and
password `"pw"`, a failing `pull` returns the diagnostic unchanged, still
containing `b%20b:pw`; with username `"u"`, password `"p"` and error
stream `"u:u:pp"`, the returned diagnostic is exactly `"u:p"`. -/
theorem scrub_missed_forms_cex :
    Git.init (pystr "/home") (pystr "https://h/o/r.git") (pystr "master")
      (some (pystr "b b")) (some (pystr "pw")) = .ok (gitCred "b b" "pw") ∧
    (Git.pull (gitCred "b b" "pw") true (pystr "/work") []
        (pystr "fatal: unable to access https://b%20b:pw@h/o/r.git/: 403")).1 =
      .ok (false, some (pystr "fatal: unable to access https://b%20b:pw@h/o/r.git/: 403")) ∧
    pyQuote (pystr "b b") ++ ':' :: pystr "pw" = pystr "b%20b:pw" ∧
    pyIn (pystr "b%20b:pw")
      (pystr "fatal: unable to access https://b%20b:pw@h/o/r.git/: 403") = true ∧
    (Git.pull (gitCred "u" "p") true (pystr "/work") [] (pystr "u:u:pp")).1 =
      .ok (false, some (pystr "u:p")) ∧
    pyIn (pystr "u:p") (pystr "u:p") = true :=
  ⟨rfl, rfl, rfl, rfl, rfl, rfl⟩

/-- Claim C3 (amended): every diagnostic message returned by a
non-raising `pull` on an existing copy, or by a fresh-copy `clone`, is
the raw error stream with the raw `username:password` substring removed
by one left-to-right pass of Python's `str.replace` — which does not
touch the percent-encoded form embedded in the URL and can leave the raw
substring when a removal splices its surroundings. -/
theorem scrub_single_pass_replace :
    (∀ (g : Git) (cwd0 out err : PyStr) (b : Bool) (m cw : PyStr),
      Git.pull g true cwd0 out err = (.ok (b, some m), cw) →
      m = pyReplace err g.credPattern []) ∧
    (∀ (g : Git) (ea : Bool) (cwd0 c_out c_err p_out p_err ch_out ch_err : PyStr)
      (b : Bool) (m cw : PyStr),
      Git.clone g false ea cwd0 c_out c_err p_out p_err ch_out ch_err =
        (.ok (b, some m), cw) →
      m = pyReplace c_err g.credPattern []) := by
  constructor
  · intro g cwd0 out err b m cw h
    simp only [Git.pull, Bool.true_eq_false, if_false] at h
    rcases hp : Git.parse_err err with e | v
    · rw [hp] at h
      exact absurd (congrArg Prod.fst h) (by simp)
    · rw [hp] at h
      by_cases hu : (pyIn (pystr "Updating") out || pyIn (pystr "up-to-date") out) = true
      · rw [if_pos hu] at h
        exact absurd (congrArg Prod.fst h) (by simp)
      · rw [if_neg hu] at h
        have h2 := Except.ok.inj (congrArg Prod.fst h)
        exact (Option.some.inj (congrArg Prod.snd h2)).symm
  · intro g ea cwd0 c_out c_err p_out p_err ch_out ch_err b m cw h
    simp only [Git.clone, Bool.false_eq_true, if_false] at h
    rcases ha : Git.cloneAddress g with e | addr
    · rw [ha] at h
      exact absurd (congrArg Prod.fst h) (by simp)
    · rw [ha] at h
      rcases hp : Git.parse_err c_err with e | v
      · rw [hp] at h
        exact absurd (congrArg Prod.fst h) (by simp)
      · rw [hp] at h
        rcases hc : Git.checkout g ea cwd0 g.repo_branch ch_out ch_err with ⟨bb, cwd1, logs⟩
        rw [hc] at h
        cases bb
        · have h2 := Except.ok.inj (congrArg Prod.fst h)
          exact (Option.some.inj (congrArg Prod.snd h2)).symm
        · exact absurd (congrArg Prod.fst h) (by simp)

/-- Witness for the amended C3 theorem at the `u`/`p`, `"u:u:pp"` input. -/
theorem scrub_single_pass_replace_witness :
    pystr "u:p" = pyReplace (pystr "u:u:pp") (gitCred "u" "p").credPattern [] :=
  scrub_single_pass_replace.1 (gitCred "u" "p") (pystr "/work") [] (pystr "u:u:pp") false
    (pystr "u:p") (pystr "/home/versions/o/r") rfl

/-- Claim C4 counterexample: for the remote address
`https://h/o/a.git.git`, whose repository name contains `".git"` as an
interior substring, the resolver produces the name `"a"` — Python's
`replace('.git', '')` removes every occurrence — whereas stripping only
the trailing suffix would leave `"a.git"`. -/
theorem repo_name_interior_git_cex :
    (Git.init (pystr "/home") (pystr "https://h/o/a.git.git") (pystr "master") none none).map
      Git.repo_name = .ok (pystr "a") ∧
    (pystr "a" == pystr "a.git") = false :=
  ⟨rfl, rfl⟩

/-- Claim C4 (amended): for every address of the shape
`scheme://host/owner/name` with slash-free `owner` and `name`, the
resolver yields `owner`, the name with every occurrence of `".git"`
removed (not only a trailing suffix), and a local path
`home/versions/owner/strippedName`. -/
theorem init_owner_name_localpath (home scheme host owner nm branch : PyStr)
    (u p : Option PyStr)
    (how : ∀ c ∈ owner, c ≠ '/') (hnm : ∀ c ∈ nm, c ≠ '/') :
    Git.init home (scheme ++ pystr "://" ++ host ++ '/' :: owner ++ '/' :: nm) branch u p =
      .ok { repo_address := scheme ++ pystr "://" ++ host ++ '/' :: owner ++ '/' :: nm
            repo_username := u
            repo_password := p
            repo_branch := branch
            repo_author := owner
            repo_name := pyReplace nm (pystr ".git") []
            upload_directory := osPathJoin home (pystr "versions")
            repo_directory :=
              osPathJoin (osPathJoin (osPathJoin home (pystr "versions")) owner)
                (pyReplace nm (pystr ".git") []) } := by
  have hform : scheme ++ pystr "://" ++ host ++ '/' :: owner ++ '/' :: nm =
      ((scheme ++ pystr "://" ++ host) ++ '/' :: owner) ++ '/' :: nm := by
    simp [List.append_assoc]
  have hsp : pySplit (scheme ++ pystr "://" ++ host ++ '/' :: owner ++ '/' :: nm) ['/'] =
      (pySplitCore ['/'] 0 (scheme ++ pystr "://" ++ host) ++ [owner]) ++ [nm] := by
    rw [hform]
    show pySplitCore ['/'] 0 _ = _
    rw [pySplitCore_slash_append _ nm hnm, pySplitCore_slash_append _ owner how]
  simp only [Git.init, hsp]
  rw [List.reverse_append, List.reverse_append]
  simp

/-- Witness for the amended C4 theorem at a concrete address with an
interior `".git"` in the repository name. -/
theorem init_owner_name_localpath_witness :
    Git.init (pystr "/home")
        (pystr "https" ++ pystr "://" ++ pystr "h" ++ '/' :: pystr "o" ++ '/' :: pystr "a.git.git")
        (pystr "master") none none =
      .ok { repo_address :=
              pystr "https" ++ pystr "://" ++ pystr "h" ++ '/' :: pystr "o" ++ '/' :: pystr "a.git.git"
            repo_username := none
            repo_password := none
            repo_branch := pystr "master"
            repo_author := pystr "o"
            repo_name := pyReplace (pystr "a.git.git") (pystr ".git") []
            upload_directory := osPathJoin (pystr "/home") (pystr "versions")
            repo_directory :=
              osPathJoin (osPathJoin (osPathJoin (pystr "/home") (pystr "versions")) (pystr "o"))
                (pyReplace (pystr "a.git.git") (pystr ".git") []) } :=
  init_owner_name_localpath (pystr "/home") (pystr "https") (pystr "h") (pystr "o")
    (pystr "a.git.git") (pystr "master") none none (by decide) (by decide)

/-- Claim C5 counterexample: the address `"nogit"` has fewer than two
`/`-delimited segments and construction fails with the incidental
`IndexError` from the negative index `split('/')[-2]`; no
`MalformedAddressError` class exists anywhere in the source. -/
theorem init_slashless_address_cex :
    Git.init (pystr "/home") (pystr "nogit") (pystr "master") none none =
      .error .indexError := rfl

/-- Claim C5 (amended): every remote address with fewer than two
`/`-delimited segments (equivalently, containing no `/` at all) makes
construction raise the built-in `IndexError`, an incidental exception,
not a typed `MalformedAddressError` (which the source does not define). -/
theorem init_slashless_index_error (home addr branch : PyStr) (u p : Option PyStr)
    (h : ∀ c ∈ addr, c ≠ '/') :
    Git.init home addr branch u p = .error .indexError := by
  have hs : pySplit addr ['/'] = [addr] := by
    have := pySplitCore_of_no_occurrence '/' [] addr (pyIn_single_eq_false '/' addr h)
    simpa [pySplit] using this
  simp [Git.init, hs]

/-- Witness for the amended C5 theorem at the address `"nogit"`. -/
theorem init_slashless_index_error_witness :
    Git.init (pystr "/h") (pystr "nogit") (pystr "dev") none none = .error .indexError :=
  init_slashless_index_error (pystr "/h") (pystr "nogit") (pystr "dev") none none (by decide)

/-- Claim C6 counterexample: with username `bob` and secret `p@ss`, the
clone address embeds the secret verbatim — it contains `bob:p@ss@` and
not the percent-encoded `p%40ss` (which `quote` would produce): the
secret is not percent-encoded. -/
theorem clone_address_raw_secret_cex :
    Git.init (pystr "/home") (pystr "https://h/o/r.git") (pystr "master")
      (some (pystr "bob")) (some (pystr "p@ss")) = .ok (gitCred "bob" "p@ss") ∧
    Git.cloneAddress (gitCred "bob" "p@ss") = .ok (pystr "https://bob:p@ss@h/o/r.git") ∧
    pyIn (pystr "bob:p@ss@") (pystr "https://bob:p@ss@h/o/r.git") = true ∧
    pyQuote (pystr "p@ss") = pystr "p%40ss" ∧
    pyIn (pystr "p%40ss") (pystr "https://bob:p@ss@h/o/r.git") = false :=
  ⟨rfl, rfl, rfl, rfl, rfl⟩

/-- Claim C6 (amended): whenever credentials are present and the address
splits as `scheme://rest`, the fetch URL embeds
`quote(username):password@` between the scheme and the host — the
username percent-encoded, the secret embedded verbatim with no
percent-encoding. -/
theorem clone_address_embedding (g : Git) (u p scheme rest : PyStr)
    (hu : g.repo_username = some u) (hp : g.repo_password = some p)
    (ha : g.repo_address = scheme ++ pystr "://" ++ rest)
    (hs : ∀ c ∈ scheme, c ≠ ':') (hr : pyIn (pystr "://") rest = false) :
    Git.cloneAddress g =
      .ok (scheme ++ pystr "://" ++ pyQuote u ++ ':' :: p ++ '@' :: rest) := by
  have hsp : pySplit g.repo_address (pystr "://") = [scheme, rest] := by
    rw [ha]
    have h2 : pyIn [':', '/', '/'] rest = false := hr
    have h3 := pySplitCore_scheme_pair scheme rest hs h2
    have h4 : scheme ++ pystr "://" ++ rest = scheme ++ ':' :: '/' :: '/' :: rest := by
      simp [pystr, List.append_assoc]
    rw [h4]
    simpa [pySplit, pystr] using h3
  simp [Git.cloneAddress, hu, hp, hsp]

/-- Witness for the amended C6 theorem with `bob`/`p@ss`. -/
theorem clone_address_embedding_witness :
    Git.cloneAddress (gitCred "bob" "p@ss") =
      .ok (pystr "https" ++ pystr "://" ++ pyQuote (pystr "bob") ++ ':' :: pystr "p@ss" ++
        '@' :: pystr "h/o/r.git") :=
  clone_address_embedding (gitCred "bob" "p@ss") (pystr "bob") (pystr "p@ss") (pystr "https")
    (pystr "h/o/r.git") rfl rfl rfl (by decide) rfl

/-- Claim C7: the diff parser maps the specification's six example lines
to exactly the expected dictionary, preserving order of additions within
a file and ignoring the deletion line; and, in general, a `+++` header
line after which no appending `+` line occurs leaves its extracted
filename present as a key bound to the empty sequence whenever parsing
returns a result. -/
theorem parse_diff_example_and_empty_entry :
    parseDiffLines [pystr "+++ b/aa.txt", pystr "+ccccc", pystr "+ddddd",
        pystr "+++ b/bb.txt", pystr "+hhhhhhh", pystr "-removed"] =
      .ok [(pystr "aa.txt", [pystr "ccccc", pystr "ddddd"]),
           (pystr "bb.txt", [pystr "hhhhhhh"])] ∧
    (∀ (pre : List PyStr) (hdr : PyStr) (post : List PyStr) (f : PyStr) (r : DiffDict),
      parseDiffLines (pre ++ hdr :: post) = .ok r →
      isHeaderLine hdr = true → headerName hdr = f →
      (∀ x ∈ post, isAppLine x = false) →
      dictGet r f = some []) := by
  constructor
  · rfl
  · intro pre hdr post f r hok hh hf hall
    simp only [parseDiffLines] at hok
    rcases hgo : parseDiffGo (pre ++ hdr :: post) [] [] with e | ⟨d, t⟩
    · rw [hgo] at hok; cases hok
    · rw [hgo] at hok
      have hrd : r = d := (Except.ok.inj hok).symm
      subst hrd
      rw [parseDiffGo_append pre (hdr :: post) [] []] at hgo
      rcases hpre : parseDiffGo pre [] [] with e | ⟨d1, t1⟩
      · rw [hpre] at hgo; cases hgo
      · rw [hpre] at hgo
        simp only [parseDiffGo, diffStep_header d1 t1 hdr hh, hf] at hgo
        exact dictGet_preserved_list post (dictSet d1 f []) r f t f hall hgo
          (dictGet_dictSet_self d1 f [])

/-- Witness for the C7 theorem: a lone header line leaves its filename
bound to the empty sequence. -/
theorem parse_diff_example_and_empty_entry_witness :
    dictGet [(pystr "cc.txt", [])] (pystr "cc.txt") = some [] :=
  parse_diff_example_and_empty_entry.2 [] (pystr "+++ b/cc.txt") [] (pystr "cc.txt")
    [(pystr "cc.txt", [])] rfl rfl rfl (by simp)

/-- Claim C8 counterexample: `checkout` on a missing local copy returns
the bare boolean `False` — there is no failure message in the returned
value at all — and the only diagnostic it emits is the log line
`'No repo directory.'`, which does not contain `"no local copy"`. -/
theorem checkout_missing_copy_cex :
    Git.checkout gitPub false (pystr "/work") (pystr "dev") [] [] =
      (false, pystr "/work", [pystr "No repo directory."]) ∧
    pyIn (pystr "no local copy") (pystr "No repo directory.") = false :=
  ⟨rfl, rfl⟩

/-- Claim C8 (amended): for every branch name, `checkout` on a
non-existent local path returns the bare failure `False` without raising
any exception, logs `'No repo directory.'` (not `"no local copy"`), and
leaves the process working directory unchanged. -/
theorem checkout_missing_copy_bare_false (g : Git)
    (cwd0 branch checkout_out checkout_err : PyStr) :
    Git.checkout g false cwd0 branch checkout_out checkout_err =
      (false, cwd0, [pystr "No repo directory."]) := rfl

/-- Claim C9: `committer` on empty tool output returns
`(False, None, None)`; on output the blame pattern matches it returns
`(True, author, timestamp)` where the timestamp has the
`YYYY-MM-DD HH:MM:SS` shape enforced by the pattern's timestamp group.
In both cases the final working directory is the `path` argument. -/
theorem committer_output_cases :
    (∀ (file path : PyStr) (ln len : Nat) (cwd0 : PyStr),
      Git.committer file path ln len cwd0 [] = (.ok (false, none, none), path)) ∧
    (∀ (file path : PyStr) (ln len : Nat) (cwd0 out a t : PyStr),
      blameFirst out = some (a, t) →
      Git.committer file path ln len cwd0 out = (.ok (true, some a, some t), path) ∧
      tsCheck t = true) := by
  constructor
  · intro file path ln len cwd0; rfl
  · intro file path ln len cwd0 out a t h
    have hne : out ≠ [] := blameFirst_ne_nil out a t h
    have hlen : out.length ≠ 0 := by simpa [List.length_eq_zero] using hne
    refine ⟨?_, blameFirst_ts out a t h⟩
    simp [Git.committer, hlen, h]

/-- Witness for the C9 theorem at a concrete matching blame line. -/
theorem committer_output_cases_witness :
    Git.committer (pystr "git.py") (pystr "/repo") 21 1 (pystr "/work")
        (pystr "AAAAAAAA (bob 2016-09-10 12:19:44") =
      (.ok (true, some (pystr "bob"), some (pystr "2016-09-10 12:19:44")), pystr "/repo") ∧
    tsCheck (pystr "2016-09-10 12:19:44") = true :=
  committer_output_cases.2 (pystr "git.py") (pystr "/repo") 21 1 (pystr "/work")
    (pystr "AAAAAAAA (bob 2016-09-10 12:19:44") (pystr "bob")
    (pystr "2016-09-10 12:19:44") rfl

/-- Claim C10: the diff parser is partial exactly as described — when the
first appending `+` line (nonempty remainder, not a `+++` header) comes
before any header line, parsing raises `KeyError` on the empty-string
filename; when every appending line is preceded by some header line,
parsing returns a dictionary and never crashes. -/
theorem parse_diff_partiality (lines : List PyStr) :
    ((∃ pre x rest, lines = pre ++ x :: rest ∧ isAppLine x = true ∧
        (∀ y ∈ pre, isHeaderLine y = false ∧ isAppLine y = false)) →
      parseDiffLines lines = .error (.keyError [])) ∧
    ((∀ pre x rest, lines = pre ++ x :: rest → isAppLine x = true →
        ∃ y ∈ pre, isHeaderLine y = true) →
      ∃ d, parseDiffLines lines = .ok d) := by
  constructor
  · rintro ⟨pre, x, rest, hdec, happ, hpre⟩
    subst hdec
    have hskip := parseDiffGo_skip_prefix pre (x :: rest) [] [] hpre
    have hstep := diffStep_app_none [] [] x happ (by simp [dictGet])
    simp [parseDiffLines, hskip, parseDiffGo, hstep, Except.map]
  · intro hguard
    obtain ⟨⟨d, t⟩, hok⟩ := parseDiffGo_ok_guarded lines [] [] hguard
    exact ⟨d, by simp [parseDiffLines, hok, Except.map]⟩

/-- Witness for the C10 theorem: an addition before any header raises
`KeyError('')`, and an addition after a header parses successfully. -/
theorem parse_diff_partiality_witness :
    parseDiffLines [pystr "+x"] = .error (.keyError []) ∧
    (∃ d, parseDiffLines [pystr "+++ b/f", pystr "+y"] = .ok d) := by
  constructor
  · exact (parse_diff_partiality [pystr "+x"]).1 ⟨[], pystr "+x", [], rfl, rfl, by simp⟩
  · refine (parse_diff_partiality [pystr "+++ b/f", pystr "+y"]).2 ?_
    intro pre x rest heq happ
    rcases pre with _ | ⟨a, pre1⟩
    · simp only [List.nil_append] at heq
      injection heq with h1 h2
      rw [← h1] at happ
      exact absurd happ (by decide)
    · rcases pre1 with _ | ⟨b, pre2⟩
      · injection heq with h1 h2
        exact ⟨a, by simp, by rw [← h1]; decide⟩
      · injection heq with h1 h2
        injection h2 with h3 h4
        exact absurd h4 (by simp)
